import Mathlib

/-!
Verification of the trajectory-correction core of `traj-app` (`src/App.tsx`)
against its natural-language specification.

The relevant program state and operations are shallowly embedded here:
JavaScript numbers are modelled as exact rationals (`ℚ`), JavaScript arrays
as `List`, a thrown `TypeError` as `Option.none`, and `NaN` results of
`parseFloat` / `parseInt` as `Option.none` fields.  Each definition carries
a comment naming the source function or expression it embeds.
-/

namespace TrajApp

/-- A latitude/longitude pair, as produced by a Leaflet click or drag event. -/
structure Position where
  lat : ℚ
  lng : ℚ
deriving DecidableEq

/-- The payload of a correction marker: `{ lat, lng, cts }`
(the `value` prop of a `GPSMarker` element in `App.tsx`). -/
structure MarkerValue where
  lat : ℚ
  lng : ℚ
  cts : ℚ
deriving DecidableEq

/-- Model of a `GPSMarker` React element held in the `markers` state array:
only its `id` and `value` props matter to the core logic. -/
structure GPSMarker where
  id : ℕ
  value : MarkerValue
deriving DecidableEq

/-- A down-sampled GPS sample `{ lat, lng, cts }` from `extractGpsData`
(the derived `acc` field plays no role in the claims checked here). -/
structure RawSample where
  lat : ℚ
  lng : ℚ
  cts : ℚ
deriving DecidableEq

/-- A point of the reconstructed path (`splineData` entries in `App.tsx`). -/
structure SplinePoint where
  lat : ℚ
  lng : ℚ
  cts : ℚ
deriving DecidableEq

/-- The `AppState` enum of `App.tsx`. -/
inductive AppState where
  | idle
  | videoLoading
  | gpsLoading
  | ready
  | error
deriving DecidableEq

/-- JavaScript array-index assignment `arr[i] = x` for the only shapes the
program reaches: `i < arr.length` overwrites in place, `i = arr.length`
appends (both `createMarker` call sites satisfy `i ≤ arr.length`). -/
def jsArraySet (l : List α) (i : ℕ) (x : α) : List α :=
  if i < l.length then l.set i x else l ++ [x]

/-- `removeMarker` from `App.tsx`: `newMarkers.splice(id, 1)` — removes the
element at index `id` and shifts every later element down by one
(`List.eraseIdx` has exactly the semantics of a one-element `splice`,
including the silent no-op when `id ≥ length`). -/
def removeMarker (id : ℕ) (markers : List GPSMarker) : List GPSMarker :=
  markers.eraseIdx id

/-- `handleMarkerDrag` from `App.tsx`: reads `newMarkers[id].props.value.cts`
— when slot `id` does not exist this is a property access on `undefined`,
which throws a `TypeError` (modelled by `none`); otherwise it replaces slot
`id` with a marker at the dragged position keeping the old `cts` and `id`. -/
def handleMarkerDrag (id : ℕ) (position : Position) (markers : List GPSMarker) :
    Option (List GPSMarker) :=
  match markers[id]? with
  | none => none
  | some m =>
      some (markers.set id ⟨id, ⟨position.lat, position.lng, m.value.cts⟩⟩)

/-- `createMarker` from `App.tsx`:
`idx = markers.findIndex(m => m.props.value.cts === currentCTS)`;
`id = idx !== -1 ? idx : markers.length` (which is precisely
`List.findIdx`, returning `length` when nothing matches);
`newMarkers[id] = newMarker`. -/
def createMarker (position : Position) (currentCTS : ℚ) (markers : List GPSMarker) :
    List GPSMarker :=
  let value : MarkerValue := ⟨position.lat, position.lng, currentCTS⟩
  let id := markers.findIdx (fun m => decide (m.value.cts = currentCTS))
  jsArraySet markers id ⟨id, value⟩

/-- The subsampling step of `extractGpsData`:
`gpsData.filter((data, i) => i % 4 === 0 || i === gpsData.length - 1)`. -/
def subsampleGps (gpsData : List RawSample) : List RawSample :=
  (gpsData.enum.filter
    (fun p => p.1 % 4 == 0 || p.1 == gpsData.length - 1)).map Prod.snd

/-- The distinct falsy reasons `saveRequirementsAreNotMet` can return
(each constructor stands for one of the human-readable strings). -/
inductive SaveError where
  | noVideo
  | notReady
  | insufficientPoints
  | incompleteCoverage
deriving DecidableEq

/-- `Math.max(...xs)` on a non-empty spread argument list (the only way the
program calls it; an empty list would give `-Infinity`, never reached
because the caller has already checked `splineData.length > 2`). -/
def mathMax : List ℚ → ℚ
  | [] => 0
  | x :: xs => xs.foldl max x

/-- `Math.min(...xs)` on a non-empty spread argument list. -/
def mathMin : List ℚ → ℚ
  | [] => 0
  | x :: xs => xs.foldl min x

/-- `saveRequirementsAreNotMet` from `App.tsx`, with each returned string
replaced by the corresponding `SaveError` and `false` by `none`.  The
guards are checked in source order; the coverage test compares against the
literal `100` (milliseconds) appearing in the source. -/
def saveRequirementsAreNotMet (videoPath : Option String) (appState : AppState)
    (splineData : List SplinePoint) (gpsData : List RawSample) : Option SaveError :=
  if videoPath.isNone then some .noVideo
  else if appState ≠ AppState.ready then some .notReady
  else if splineData.length ≤ 2 then some .insufficientPoints
  else
    let times := splineData.map (·.cts)
    let maxSplineCts := mathMax times
    let minSplineCts := mathMin times
    if (gpsData.getLastD ⟨0, 0, 0⟩).cts - maxSplineCts > 100 ∨
        minSplineCts - (gpsData.headD ⟨0, 0, 0⟩).cts > 100 then
      some .incompleteCoverage
    else none

/-! Model of the `typescript-cubic-spline` dependency (a TypeScript port of
the `cubic-spline` npm package) used by `generateSpline`: a natural cubic
spline in Hermite form, whose knot slopes `ks` are obtained by Gaussian
elimination with partial pivoting on the natural-spline tridiagonal system.
JavaScript numbers are modelled as `ℚ`; `-Infinity` (the initial pivot
maximum) as `Option.none`. -/

/-- Matrix entry `A[i][j]` (row-major list of rows). -/
def entry (A : List (List ℚ)) (i j : ℕ) : ℚ := (A.getD i []).getD j 0

/-- Functional update of matrix entry `A[i][j]`. -/
def setEntry (A : List (List ℚ)) (i j : ℕ) (x : ℚ) : List (List ℚ) :=
  A.set i ((A.getD i []).set j x)

/-- Row swap, as performed before eliminating below a pivot. -/
def swapRows (A : List (List ℚ)) (i j : ℕ) : List (List ℚ) :=
  let ri := A.getD i []
  let rj := A.getD j []
  (A.set i rj).set j ri

/-- One entry of the `(n+1) × (n+2)` augmented matrix built by
`getNaturalKs`: row 0 and row `n` carry the natural boundary conditions,
interior rows the tridiagonal smoothness equations (faithful to the order
of assignment in the library for `n ≥ 1`, where rows `0` and `n` are
distinct). -/
def natKsEntry (xs ys : List ℚ) (n i j : ℕ) : ℚ :=
  let x := fun k => xs.getD k 0
  let y := fun k => ys.getD k 0
  if i = 0 then
    if j = 0 then 2 / (x 1 - x 0)
    else if j = 1 then 1 / (x 1 - x 0)
    else if j = n + 1 then 3 * (y 1 - y 0) / ((x 1 - x 0) * (x 1 - x 0))
    else 0
  else if i = n then
    if j = n - 1 then 1 / (x n - x (n - 1))
    else if j = n then 2 / (x n - x (n - 1))
    else if j = n + 1 then
      3 * (y n - y (n - 1)) / ((x n - x (n - 1)) * (x n - x (n - 1)))
    else 0
  else
    if j = i - 1 then 1 / (x i - x (i - 1))
    else if j = i then 2 * (1 / (x i - x (i - 1)) + 1 / (x (i + 1) - x i))
    else if j = i + 1 then 1 / (x (i + 1) - x i)
    else if j = n + 1 then
      3 * ((y i - y (i - 1)) / ((x i - x (i - 1)) * (x i - x (i - 1))) +
        (y (i + 1) - y i) / ((x (i + 1) - x i) * (x (i + 1) - x i)))
    else 0

/-- The augmented matrix of `getNaturalKs` for knots `xs`, values `ys`. -/
def natKsMatrix (xs ys : List ℚ) : List (List ℚ) :=
  let n := xs.length - 1
  (List.range (n + 1)).map (fun i => (List.range (n + 2)).map (natKsEntry xs ys n i))

/-- The pivot scan of the library's `solve`: the first row index in
`[h, m)` attaining the maximal `|A[i][k]|` (`max` starts at `-Infinity`,
modelled by `none`, so the first candidate always wins initially). -/
def pivotIdx (A : List (List ℚ)) (h k : ℕ) : ℕ :=
  ((List.range' h (A.length - h)).foldl
    (fun acc i =>
      match acc.2 with
      | none => (i, some |entry A i k|)
      | some mx => if |entry A i k| > mx then (i, some |entry A i k|) else acc)
    ((0 : ℕ), (none : Option ℚ))).1

/-- Row elimination below pivot row `h` in column `k` of an `m`-row
augmented matrix (columns `k+1 .. m` updated, column `k` zeroed), as in the
library's forward elimination. -/
def elimBelow (A : List (List ℚ)) (h k m : ℕ) : List (List ℚ) :=
  (List.range' (h + 1) (m - (h + 1))).foldl
    (fun B i =>
      let f := entry B i k / entry B h k
      let B1 := setEntry B i k 0
      (List.range' (k + 1) (m - k)).foldl
        (fun C j => setEntry C i j (entry C i j - entry C h j * f)) B1)
    A

/-- The forward-elimination `while (h < m && k <= m)` loop of `solve`,
with explicit fuel (each iteration increments `k`, so `2m + 2` steps always
suffice to reach the exit condition). -/
def gaussForwardGo (xs : ℕ) (A : List (List ℚ)) (h k : ℕ) : List (List ℚ) :=
  match xs with
  | 0 => A
  | fuel + 1 =>
    let m := A.length
    if h < m ∧ k ≤ m then
      let im := pivotIdx A h k
      if entry A im k = 0 then
        gaussForwardGo fuel A h (k + 1)
      else
        gaussForwardGo fuel (elimBelow (swapRows A h im) h k m) (h + 1) (k + 1)
    else A

/-- Forward elimination over the whole matrix. -/
def gaussForward (A : List (List ℚ)) : List (List ℚ) :=
  gaussForwardGo (2 * A.length + 2) A 0 0

/-- The back-substitution loop of `solve`, running `i = m-1 .. 0` (the
counter argument is `i + 1`): `v = A[i][m] / A[i][i]` when the pivot is
truthy (nonzero) else `0`, written into `ks[i]`, then eliminated upwards. -/
def backSubstGo : ℕ → List (List ℚ) × List ℚ → List (List ℚ) × List ℚ
  | 0, st => st
  | c + 1, (A, ks) =>
    let m := A.length
    let v := if entry A c c ≠ 0 then entry A c m / entry A c c else 0
    let A1 := (List.range c).reverse.foldl
      (fun B j => setEntry (setEntry B j m (entry B j m - entry B j c * v)) j c 0) A
    backSubstGo c (A1, ks.set c v)

/-- The library's `solve(A, ks)`: Gaussian elimination with partial
pivoting followed by back substitution. -/
def solve (A : List (List ℚ)) (ks : List ℚ) : List ℚ :=
  let F := gaussForward A
  (backSubstGo F.length (F, ks)).2

/-- `getNaturalKs`: solve the natural-spline system, starting from a
zero-filled `ks` of the same length as `xs`. -/
def getNaturalKs (xs ys : List ℚ) : List ℚ :=
  solve (natKsMatrix xs ys) (List.replicate xs.length 0)

/-- The spline object: knot abscissae, ordinates and computed slopes. -/
structure CubicSpline where
  xs : List ℚ
  ys : List ℚ
  ks : List ℚ

/-- `new CubicSpline(xs, ys)`. -/
def mkCubicSpline (xs ys : List ℚ) : CubicSpline := ⟨xs, ys, getNaturalKs xs ys⟩

/-- The `getIndexBefore` binary-search loop with explicit fuel (the
`[low, high)` gap strictly shrinks on every non-terminal iteration, so
`length + 2` steps suffice). -/
def getIndexBeforeGo (xs : List ℚ) (target : ℚ) : ℕ → ℕ → ℕ → ℕ
  | 0, low, _ => low + 1
  | fuel + 1, low, high =>
    if low < high then
      let mid := (low + high) / 2
      if xs.getD mid 0 < target ∧ mid ≠ low then
        getIndexBeforeGo xs target fuel mid high
      else if target ≤ xs.getD mid 0 ∧ mid ≠ high then
        getIndexBeforeGo xs target fuel low mid
      else
        getIndexBeforeGo xs target fuel low low
    else low + 1

/-- `getIndexBefore(target)`: the index `i` such that the Hermite segment
`[xs[i-1], xs[i]]` is used for evaluation. -/
def getIndexBefore (xs : List ℚ) (target : ℚ) : ℕ :=
  getIndexBeforeGo xs target (xs.length + 2) 0 xs.length

/-- The library's `at(target)`: cubic Hermite evaluation on the segment
selected by `getIndexBefore`, with endpoint slopes taken from `ks`. -/
def CubicSpline.evalAt (s : CubicSpline) (target : ℚ) : ℚ :=
  let i := getIndexBefore s.xs target
  let x := fun k => s.xs.getD k 0
  let y := fun k => s.ys.getD k 0
  let kk := fun k => s.ks.getD k 0
  let t := (target - x (i - 1)) / (x i - x (i - 1))
  let a := kk (i - 1) * (x i - x (i - 1)) - (y i - y (i - 1))
  let b := -(kk i) * (x i - x (i - 1)) + (y i - y (i - 1))
  (1 - t) * y (i - 1) + t * y i + t * (1 - t) * (a * (1 - t) + b * t)

/-- `generateSpline(values, targets)` from `App.tsx`: sort the marker
values by `cts` (JavaScript `Array.sort` with a numeric comparator is
stable and ascending, matching insertion sort by `≤`), build one spline
for `lat` and one for `lng` over the `cts` axis (the `reduce` accumulating
`lats`/`lngs`/`xs` in order is three in-order projections), clip the
targets to `[min(xs), max(xs)]`, and evaluate both splines at every
remaining target. -/
def generateSpline (values : List MarkerValue) (targets : List ℚ) : List SplinePoint :=
  let sorted := values.insertionSort (fun a b => a.cts ≤ b.cts)
  let xs := sorted.map (·.cts)
  let lats := sorted.map (·.lat)
  let lngs := sorted.map (·.lng)
  let latSpline := mkCubicSpline xs lats
  let lngSpline := mkCubicSpline xs lngs
  let mx := mathMax xs
  let mn := mathMin xs
  let target_xs := targets.filter (fun x => decide (mn ≤ x) && decide (x ≤ mx))
  target_xs.map (fun cts => ⟨latSpline.evalAt cts, lngSpline.evalAt cts, cts⟩)

/-- The spline-recompute `useEffect` of `App.tsx`, as a function from the
observed state to the new `splineData`: `if (!markers.length ||
!gpsData.length) return;` leaves the previous value in place; otherwise
fewer than 2 markers produce `[]` and 2 or more run `generateSpline` over
the marker values and the original-sample timestamps. -/
def splineRecompute (markers : List GPSMarker) (gpsData : List RawSample)
    (prevSplineData : List SplinePoint) : List SplinePoint :=
  if markers.length = 0 ∨ gpsData.length = 0 then prevSplineData
  else if 2 ≤ markers.length then
    generateSpline (markers.map (·.value)) (gpsData.map (·.cts))
  else []

/-! Model of the CSV export (`saveData`) and import (`loadMarkersFromCSV`)
paths.  JavaScript strings are modelled as `List Char`; `parseFloat` /
`parseInt` return `none` for `NaN`. -/

/-- Whether a character is a decimal digit `0`–`9`. -/
def isDigitC (c : Char) : Bool := decide (48 ≤ c.toNat) && decide (c.toNat ≤ 57)

/-- Numeric value of a digit character. -/
def charVal (c : Char) : ℕ := c.toNat - 48

/-- Character of a decimal digit. -/
def digitChar (d : ℕ) : Char := Char.ofNat (48 + d)

/-- Numeric value of a digit string, most significant digit first. -/
def digitsVal (ds : List Char) : ℕ := Nat.ofDigits 10 ((ds.map charVal).reverse)

/-- The unsigned part of JavaScript `parseFloat`: the longest prefix of the
form `digits [. digits]`, `NaN` (`none`) when it contains no digit. -/
def parseUnsigned (s : List Char) : Option ℚ :=
  let ds := s.takeWhile isDigitC
  let rest := s.dropWhile isDigitC
  match rest with
  | '.' :: r =>
      let fs := r.takeWhile isDigitC
      if ds.isEmpty && fs.isEmpty then none
      else some ((digitsVal ds : ℚ) + (digitsVal fs : ℚ) / 10 ^ fs.length)
  | _ => if ds.isEmpty then none else some ((digitsVal ds : ℚ))

/-- JavaScript `parseFloat` on the strings this program feeds it (an
optional sign followed by the longest numeric prefix; `NaN` is `none`). -/
def parseFloatM (s : List Char) : Option ℚ :=
  match s with
  | [] => none
  | c :: r =>
      if c = '-' then (parseUnsigned r).map (fun q => -q)
      else if c = '+' then parseUnsigned r
      else parseUnsigned (c :: r)

/-- The unsigned part of JavaScript `parseInt`: the longest digit prefix. -/
def parseIntU (s : List Char) : Option ℤ :=
  let ds := s.takeWhile isDigitC
  if ds.isEmpty then none else some ((digitsVal ds : ℤ))

/-- JavaScript `parseInt` (base 10) on the strings this program feeds it:
an optional sign and the longest digit prefix, so a decimal point and
everything after it is dropped — truncation toward zero. -/
def parseIntM (s : List Char) : Option ℤ :=
  match s with
  | [] => none
  | c :: r =>
      if c = '-' then (parseIntU r).map (fun z => -z)
      else if c = '+' then parseIntU r
      else parseIntU (c :: r)

/-- JavaScript `String.prototype.split` with a one-character separator
(`""` splits to `[""]`, and a trailing separator yields a trailing empty
part, exactly as in JavaScript). -/
def splitOnChar (sep : Char) : List Char → List (List Char)
  | [] => [[]]
  | c :: rest =>
      let r := splitOnChar sep rest
      if c = sep then [] :: r
      else (c :: r.headD []) :: r.tail

/-- JavaScript `Array.prototype.join` with a one-character separator. -/
def joinWith (sep : Char) : List (List Char) → List Char
  | [] => []
  | [r] => r
  | r :: s :: rs => r ++ sep :: joinWith sep (s :: rs)

/-- One parsed CSV row: `const [lat, lng, cts] = line.split(",")` followed
by `parseFloat(lat)`, `parseFloat(lng)`, `parseInt(cts)` — a missing part
is `undefined`, which both parsers turn into `NaN` (`none`), as does the
empty string. -/
structure ParsedRow where
  lat : Option ℚ
  lng : Option ℚ
  cts : Option ℤ
deriving DecidableEq

/-- Parse one CSV line as `loadMarkersFromCSV` does. -/
def parseLine (line : List Char) : ParsedRow :=
  let parts := splitOnChar ',' line
  ⟨parseFloatM (parts.getD 0 []), parseFloatM (parts.getD 1 []),
    parseIntM (parts.getD 2 [])⟩

/-- The import path of `loadMarkersFromCSV`: `file.split("\n")`, each line
parsed into a row, and `parsed.map((data, id) => <GPSMarker id={id} ...>)`
assigning ids densely `0..n-1` in file order; the result replaces the
previous marker set wholesale (`setMarkers(newMarkers)`). -/
def loadMarkersFromCSV (file : List Char) : List (ℕ × ParsedRow) :=
  ((splitOnChar '\n' file).map parseLine).enum

/-- Decimal digit characters of a natural number, `"0"` for zero. -/
def natDigits (n : ℕ) : List Char :=
  if n = 0 then ['0'] else ((Nat.digits 10 n).reverse).map digitChar

/-- The number of decimal places `numToString` prints: the least `k` with
`den ∣ 10 ^ k` (searched up to `den`, which suffices whenever any power
works; `0` as a never-reached fallback otherwise). -/
def decExponent (q : ℚ) : ℕ :=
  ((List.range (q.den + 1)).find? (fun k => decide ((q.den : ℕ) ∣ 10 ^ k))).getD 0

/-- The digits of `|q|` as printed by JavaScript: integer part, and when
`q` is not an integer a decimal point followed by the zero-padded exact
fractional digits. -/
def numToStringCore (q : ℚ) : List Char :=
  let k := decExponent q
  let n := q.num.natAbs * 10 ^ k / q.den
  if k = 0 then natDigits n
  else
    natDigits (n / 10 ^ k) ++ '.' ::
      (List.replicate (k - (natDigits (n % 10 ^ k)).length) '0' ++ natDigits (n % 10 ^ k))

/-- JavaScript number-to-string conversion `${x}` for the values this
program prints: the exact finite decimal expansion with a sign, no
exponent notation and no trailing fractional zeros (every IEEE double is a
dyadic rational, so its exact expansion is finite). -/
def numToString (q : ℚ) : List Char :=
  (if q.num < 0 then ['-'] else []) ++ numToStringCore q

/-- One `` `${lat},${lng},${cts}` `` CSV row of `saveData`. -/
def markerValueRow (v : MarkerValue) : List Char :=
  numToString v.lat ++ ',' :: (numToString v.lng ++ ',' :: numToString v.cts)

/-- The export path of `saveData`: one row per marker in slot order,
joined with newlines (no trailing newline). -/
def serializeMarkers (markers : List GPSMarker) : List Char :=
  joinWith '\n' (markers.map (fun m => markerValueRow m.value))

/-- A rational whose denominator divides a power of 10 (every JavaScript
number — a binary double — has this property); exactly these values are
printed faithfully by `numToString`. -/
def DecFinite (q : ℚ) : Prop := (q.den : ℕ) ∣ 10 ^ q.den

/-- Truncation toward zero — the value `parseInt` recovers from the
decimal rendering of a rational. -/
def truncTowardZero (q : ℚ) : ℤ :=
  if q.num < 0 then -(q.num.natAbs / q.den : ℕ) else (q.num.natAbs / q.den : ℕ)

/-- The natural-spline augmented matrix for knots `[0, 2, 4]` and values
`[0, 1, 0]` (the C3 counterexample), before elimination. -/
def gaussM0 : List (List ℚ) := [[1, 1/2, 0, 3/4], [1/2, 2, 1/2, 0], [0, 1/2, 1, -(3/4)]]

/-- `gaussM0` after eliminating column 0. -/
def gaussM1 : List (List ℚ) :=
  [[1, 1/2, 0, 3/4], [0, 7/4, 1/2, -(3/8)], [0, 1/2, 1, -(3/4)]]

/-- `gaussM1` after eliminating column 1 (the final row-echelon form). -/
def gaussM2 : List (List ℚ) :=
  [[1, 1/2, 0, 3/4], [0, 7/4, 1/2, -(3/8)], [0, 0, 6/7, -(9/14)]]

/-- Original-sample list used in the C2 counterexample: first `cts` 0,
last `cts` 20000. -/
def gpsW : List RawSample := [⟨0, 0, 0⟩, ⟨0, 0, 20000⟩]

/-- Reconstructed points used in the C2 counterexample: they span
9999..10001, i.e. they stop 9999 ms short of both timeline ends. -/
def splW : List SplinePoint := [⟨0, 0, 9999⟩, ⟨0, 0, 10000⟩, ⟨0, 0, 10001⟩]

/-- Position of marker A in the C1 scenario. -/
def posA : Position := ⟨1, 10⟩

/-- Position of marker B in the C1 scenario. -/
def posB : Position := ⟨2, 20⟩

/-- Position of marker C in the C1 scenario. -/
def posC : Position := ⟨3, 30⟩

/-- The registry obtained by creating markers A, B, C at timestamps
0, 100, 200 starting from the empty registry (C1 scenario). -/
def regABC : List GPSMarker :=
  createMarker posC 200 (createMarker posB 100 (createMarker posA 0 []))

end TrajApp

open TrajApp

/-- C1: the creation part of the scenario behaves as claimed — A, B, C get
ids 0, 1, 2 — but removal does not: `removeMarker` is a dense `splice`, so
after removing id 1 the C marker (still carrying id prop 2) sits at slot
index 1 and slot 2 no longer exists.  This refutes "removal marks the slot
a hole and does not shift the slot indices of any surviving marker". -/
theorem C1_remove_shifts_slots_counterexample :
    regABC = [⟨0, ⟨1, 10, 0⟩⟩, ⟨1, ⟨2, 20, 100⟩⟩, ⟨2, ⟨3, 30, 200⟩⟩] ∧
    (removeMarker 1 regABC).length = 2 ∧
    (removeMarker 1 regABC)[1]? = some ⟨2, ⟨3, 30, 200⟩⟩ ∧
    (removeMarker 1 regABC)[2]? = none := by
  decide

/-- C1 (amended): `removeMarker id` performs a dense-array delete
(`splice(id, 1)`): the registry shrinks by one, slots below `id` are
untouched, and every slot from `id` on is shifted down by one (so surviving
markers keep their embedded `id` props but not their slot indices, and no
hole is left behind). -/
theorem C1_remove_is_dense_splice (l : List GPSMarker) (i : ℕ) (h : i < l.length) :
    (removeMarker i l).length = l.length - 1 ∧
    (∀ j, j < i → (removeMarker i l)[j]? = l[j]?) ∧
    (∀ j, i ≤ j → (removeMarker i l)[j]? = l[j + 1]?) := by
  refine ⟨?_, ?_, ?_⟩
  · simp [removeMarker, List.length_eraseIdx, h]
  · intro j hj
    simp [removeMarker, List.getElem?_eraseIdx, hj]
  · intro j hj
    simp [removeMarker, List.getElem?_eraseIdx, Nat.not_lt.mpr hj]

/-- C1 witness: the amended statement applied to the concrete A, B, C
scenario with the middle marker removed. -/
theorem C1_remove_is_dense_splice_witness :
    (removeMarker 1 regABC).length = 3 - 1 ∧
    (removeMarker 1 regABC)[0]? = regABC[0]? ∧
    (removeMarker 1 regABC)[1]? = regABC[2]? := by
  obtain ⟨h1, h2, h3⟩ := C1_remove_is_dense_splice regABC 1 (by decide)
  exact ⟨h1, h2 0 (by decide), h3 1 (by decide)⟩

/-- C5: dragging a marker whose slot does not exist is not a silent no-op —
`handleMarkerDrag` reads `newMarkers[id].props.value.cts`, a property access
on `undefined`, which throws (modelled by `none`); in particular on the
empty registry the result is a failure, not the unchanged registry. -/
theorem C5_move_on_hole_throws_counterexample :
    handleMarkerDrag 0 ⟨5, 6⟩ ([] : List GPSMarker) = none ∧
    handleMarkerDrag 0 ⟨5, 6⟩ ([] : List GPSMarker) ≠ some [] := by
  decide

/-- C5 (amended): when slot `id` is occupied, `handleMarkerDrag` updates
only that marker's lat/lng, retaining its `cts` and its `id` and leaving
every other slot unchanged; when slot `id` does not exist it throws a
`TypeError` (`none`) instead of failing silently. -/
theorem C5_move_semantics (markers : List GPSMarker) (id : ℕ) (position : Position) :
    (∀ m, markers[id]? = some m →
      handleMarkerDrag id position markers =
        some (markers.set id ⟨id, ⟨position.lat, position.lng, m.value.cts⟩⟩) ∧
      (markers.set id ⟨id, ⟨position.lat, position.lng, m.value.cts⟩⟩).length =
        markers.length ∧
      (markers.set id ⟨id, ⟨position.lat, position.lng, m.value.cts⟩⟩)[id]? =
        some ⟨id, ⟨position.lat, position.lng, m.value.cts⟩⟩ ∧
      ∀ j, j ≠ id →
        (markers.set id ⟨id, ⟨position.lat, position.lng, m.value.cts⟩⟩)[j]? =
          markers[j]?) ∧
    (markers[id]? = none → handleMarkerDrag id position markers = none) := by
  constructor
  · intro m hm
    have hid : id < markers.length := by
      by_contra hcon
      rw [List.getElem?_eq_none (Nat.le_of_not_lt hcon)] at hm
      exact Option.noConfusion hm
    refine ⟨?_, by simp, by simp [hid], ?_⟩
    · simp [handleMarkerDrag, hm]
    · intro j hj
      exact List.getElem?_set_ne (fun h => hj h.symm)
  · intro hm
    simp [handleMarkerDrag, hm]

/-- C5 witness: the amended statement applied to a one-marker registry,
dragging marker 0 to position (5, 6). -/
theorem C5_move_semantics_witness :
    handleMarkerDrag 0 ⟨5, 6⟩ [⟨0, ⟨1, 2, 300⟩⟩] = some [⟨0, ⟨5, 6, 300⟩⟩] ∧
    handleMarkerDrag 1 ⟨5, 6⟩ [⟨0, ⟨1, 2, 300⟩⟩] = none := by
  constructor
  · have h := (C5_move_semantics [⟨0, ⟨1, 2, 300⟩⟩] 0 ⟨5, 6⟩).1 ⟨0, ⟨1, 2, 300⟩⟩ (by decide)
    exact h.1
  · exact (C5_move_semantics [⟨0, ⟨1, 2, 300⟩⟩] 1 ⟨5, 6⟩).2 (by decide)

/-- C7: `createMarker` with a `cts` already present overwrites the first
slot holding that `cts` in place — same slot, same id — leaving the length
and all other slots unchanged; with a fresh `cts` it appends a new marker
whose id is the trailing slot index, growing the registry by exactly one. -/
theorem C7_create_overwrite_or_append (markers : List GPSMarker) (position : Position)
    (cts : ℚ) :
    ((∃ m ∈ markers, m.value.cts = cts) →
      (createMarker position cts markers).length = markers.length ∧
      (createMarker position cts markers)[markers.findIdx
          (fun m => decide (m.value.cts = cts))]? =
        some ⟨markers.findIdx (fun m => decide (m.value.cts = cts)),
          ⟨position.lat, position.lng, cts⟩⟩ ∧
      ∀ j, j ≠ markers.findIdx (fun m => decide (m.value.cts = cts)) →
        (createMarker position cts markers)[j]? = markers[j]?) ∧
    ((∀ m ∈ markers, m.value.cts ≠ cts) →
      createMarker position cts markers =
        markers ++ [⟨markers.length, ⟨position.lat, position.lng, cts⟩⟩]) := by
  constructor
  · intro hex
    have hlt : markers.findIdx (fun m => decide (m.value.cts = cts)) < markers.length := by
      apply List.findIdx_lt_length.mpr
      obtain ⟨m, hm, hcts⟩ := hex
      exact ⟨m, hm, by simp [hcts]⟩
    refine ⟨?_, ?_, ?_⟩
    · simp [createMarker, jsArraySet, hlt]
    · simp [createMarker, jsArraySet, hlt]
    · intro j hj
      simp only [createMarker, jsArraySet, if_pos hlt]
      exact List.getElem?_set_ne (fun h => hj h.symm)
  · intro hall
    have heq : markers.findIdx (fun m => decide (m.value.cts = cts)) = markers.length := by
      apply List.findIdx_eq_length_of_false
      intro m hm
      simp [hall m hm]
    simp [createMarker, jsArraySet, heq]

/-- C7 witness: `create(p2, cts = 500)` on a registry holding one marker at
`cts = 500` overwrites slot 0 in place; `create` at the fresh `cts = 700`
appends with id 1. -/
theorem C7_create_overwrite_or_append_witness :
    (createMarker ⟨7, 8⟩ 500 [⟨0, ⟨1, 2, 500⟩⟩])[0]? = some ⟨0, ⟨7, 8, 500⟩⟩ ∧
    createMarker ⟨7, 8⟩ 700 [⟨0, ⟨1, 2, 500⟩⟩] =
      [⟨0, ⟨1, 2, 500⟩⟩] ++ [⟨1, ⟨7, 8, 700⟩⟩] := by
  constructor
  · exact ((C7_create_overwrite_or_append [⟨0, ⟨1, 2, 500⟩⟩] ⟨7, 8⟩ 500).1
      ⟨⟨0, ⟨1, 2, 500⟩⟩, by decide, rfl⟩).2.1
  · exact (C7_create_overwrite_or_append [⟨0, ⟨1, 2, 500⟩⟩] ⟨7, 8⟩ 700).2 (by decide)

/-- C8: the down-sampling filter of `extractGpsData` keeps exactly the
samples whose input index is divisible by 4 together with the last raw
sample whatever its index; in particular the last raw sample itself (hence
its `cts`) is always in the reduced list. -/
theorem C8_subsample_keeps_every_4th_and_last (l : List RawSample) (h : l ≠ []) :
    l.getLast h ∈ subsampleGps l ∧
    (∀ x ∈ subsampleGps l,
      ∃ i : Fin l.length, l.get i = x ∧ (i.1 % 4 = 0 ∨ i.1 = l.length - 1)) ∧
    (∀ i : Fin l.length, (i.1 % 4 = 0 ∨ i.1 = l.length - 1) → l.get i ∈ subsampleGps l) := by
  have hkeep : ∀ i : Fin l.length, (i.1 % 4 = 0 ∨ i.1 = l.length - 1) →
      l.get i ∈ subsampleGps l := by
    intro i hi
    apply List.mem_map.mpr
    refine ⟨(i.1, l.get i), List.mem_filter.mpr ⟨?_, ?_⟩, rfl⟩
    · exact List.mk_mem_enum_iff_getElem?.mpr (List.getElem?_eq_getElem i.isLt)
    · simpa using hi
  refine ⟨?_, ?_, hkeep⟩
  · have hlen : 0 < l.length := List.length_pos.mpr h
    have hlast := hkeep ⟨l.length - 1, Nat.sub_lt hlen Nat.one_pos⟩ (Or.inr rfl)
    simpa [List.getLast_eq_getElem, List.get_eq_getElem] using hlast
  · intro x hx
    obtain ⟨⟨i, a⟩, hmem, hsnd⟩ := List.mem_map.mp hx
    obtain ⟨henum, hpred⟩ := List.mem_filter.mp hmem
    have hget := List.mk_mem_enum_iff_getElem?.mp henum
    have hilt : i < l.length := by
      by_contra hcon
      rw [List.getElem?_eq_none (Nat.le_of_not_lt hcon)] at hget
      exact Option.noConfusion hget
    refine ⟨⟨i, hilt⟩, ?_, ?_⟩
    · have : l[i] = a := by
        have := List.getElem?_eq_getElem hilt
        rw [this] at hget
        exact (Option.some.injEq _ _).mp hget
      simpa [List.get_eq_getElem, this] using hsnd
    · simpa using hpred

/-- C8 witness: a five-sample list keeps indices 0 and 4 (divisible by 4)
and the last sample, which here coincides with index 4. -/
theorem C8_subsample_keeps_every_4th_and_last_witness :
    (⟨0, 0, 400⟩ : RawSample) ∈
      subsampleGps [⟨0, 0, 0⟩, ⟨0, 0, 100⟩, ⟨0, 0, 200⟩, ⟨0, 0, 300⟩, ⟨0, 0, 400⟩] := by
  have h := (C8_subsample_keeps_every_4th_and_last
    [⟨0, 0, 0⟩, ⟨0, 0, 100⟩, ⟨0, 0, 200⟩, ⟨0, 0, 300⟩, ⟨0, 0, 400⟩] (by decide)).1
  exact h

/-- C10: the down-sampling filter also always keeps the first raw sample
(input index 0 is divisible by 4), so the head of the reduced list is
exactly the head of the raw list — same `cts`, `lat` and `lng`.  (The spec
only promises preservation of the last sample.) -/
theorem C10_subsample_keeps_first (l : List RawSample) :
    (subsampleGps l).head? = l.head? := by
  cases l with
  | nil => rfl
  | cons a t =>
      simp [subsampleGps, List.enum_cons, List.filter_cons]

/-- C2: with a loaded video, app ready and more than 2 reconstructed
points, a reconstruction stopping 9999 ms short of both ends is flagged
`IncompleteCoverage` by the code even though neither 10000-ms bound of the
claim is exceeded — the source compares the gaps against `100`, not
`10000`. -/
theorem C2_coverage_counterexample :
    saveRequirementsAreNotMet (some "video.mp4") AppState.ready splW gpsW =
      some SaveError.incompleteCoverage ∧
    ¬((20000 : ℚ) - 10001 > 10000 ∨ (9999 : ℚ) - 0 > 10000) := by
  constructor
  · simp only [saveRequirementsAreNotMet, splW, gpsW]
    norm_num [mathMax, mathMin, max_def, min_def]
  · norm_num

/-- C2 (amended): under a loaded video, ready state and more than 2
reconstructed points, `saveRequirementsAreNotMet` reports
`IncompleteCoverage` exactly when the last original sample's `cts` exceeds
the maximum reconstructed `cts` by more than 100 ms, or the minimum
reconstructed `cts` exceeds the first original sample's `cts` by more than
100 ms; otherwise it reports readiness (`none`). -/
theorem C2_coverage_threshold_is_100 (videoPath : Option String) (appState : AppState)
    (splineData : List SplinePoint) (gpsData : List RawSample)
    (hv : videoPath.isSome) (hs : appState = AppState.ready)
    (hl : 2 < splineData.length) :
    (saveRequirementsAreNotMet videoPath appState splineData gpsData =
        some SaveError.incompleteCoverage ↔
      ((gpsData.getLastD ⟨0, 0, 0⟩).cts - mathMax (splineData.map (·.cts)) > 100 ∨
        mathMin (splineData.map (·.cts)) - (gpsData.headD ⟨0, 0, 0⟩).cts > 100)) ∧
    (saveRequirementsAreNotMet videoPath appState splineData gpsData = none ↔
      ¬((gpsData.getLastD ⟨0, 0, 0⟩).cts - mathMax (splineData.map (·.cts)) > 100 ∨
        mathMin (splineData.map (·.cts)) - (gpsData.headD ⟨0, 0, 0⟩).cts > 100)) := by
  obtain ⟨v, rfl⟩ := Option.isSome_iff_exists.mp hv
  subst hs
  have hnl : ¬ splineData.length ≤ 2 := Nat.not_le.mpr hl
  simp only [saveRequirementsAreNotMet, Option.isNone_some, Bool.false_eq_true,
    if_false, ne_eq, not_true_eq_false, if_neg hnl]
  split_ifs with hc
  · exact ⟨iff_of_true rfl hc, iff_of_false (by simp) (not_not_intro hc)⟩
  · exact ⟨iff_of_false (by simp) hc, iff_of_true rfl hc⟩

/-- C2 witness: the amended threshold theorem applied to the concrete
counterexample state (both gaps are 9999 ms, which exceeds 100). -/
theorem C2_coverage_threshold_is_100_witness :
    saveRequirementsAreNotMet (some "video.mp4") AppState.ready splW gpsW =
      some SaveError.incompleteCoverage := by
  have h := (C2_coverage_threshold_is_100 (some "video.mp4") AppState.ready splW gpsW
    rfl rfl (by norm_num [splW])).1
  apply h.mpr
  left
  norm_num [splW, gpsW, mathMax, max_def]


/-! Helper computations for the C3 counterexample: the natural-spline knot
slopes for the 3-marker configuration `cts = [0, 2, 4]`, `lat = lng =
[0, 1, 0]`, followed by the evaluation of the spline at the original-sample
timestamps `0 .. 4`. -/

set_option maxHeartbeats 1600000 in
/-- The natural-spline system matrix of the C3 counterexample. -/
theorem natKs3_matrix : natKsMatrix [0, 2, 4] [0, 1, 0] = gaussM0 := by
  norm_num [natKsMatrix, natKsEntry, List.range_succ, gaussM0]

set_option maxHeartbeats 1600000 in
/-- First forward-elimination step (pivot row 0, column 0). -/
theorem gauss3_step1 : gaussForwardGo 8 gaussM0 0 0 = gaussForwardGo 7 gaussM1 1 1 := by
  conv_lhs => rw [gaussForwardGo]
  norm_num [pivotIdx, gaussM0, gaussM1, List.range', entry, abs_of_nonneg, swapRows,
    elimBelow, setEntry]

set_option maxHeartbeats 1600000 in
/-- Second forward-elimination step (pivot row 1, column 1). -/
theorem gauss3_step2 : gaussForwardGo 7 gaussM1 1 1 = gaussForwardGo 6 gaussM2 2 2 := by
  conv_lhs => rw [gaussForwardGo]
  norm_num [pivotIdx, gaussM1, gaussM2, List.range', entry, abs_of_nonneg, swapRows,
    elimBelow, setEntry]

set_option maxHeartbeats 1600000 in
/-- Third forward-elimination step (pivot row 2, nothing below to clear). -/
theorem gauss3_step3 : gaussForwardGo 6 gaussM2 2 2 = gaussForwardGo 5 gaussM2 3 3 := by
  conv_lhs => rw [gaussForwardGo]
  norm_num [pivotIdx, gaussM2, List.range', entry, abs_of_nonneg, swapRows,
    elimBelow, setEntry]

/-- The forward loop exits once `h = m`. -/
theorem gauss3_step4 : gaussForwardGo 5 gaussM2 3 3 = gaussM2 := by
  rw [gaussForwardGo]
  norm_num [gaussM2]

/-- Forward elimination of the C3 system. -/
theorem gauss3_eval : gaussForward gaussM0 = gaussM2 := by
  have h : gaussM0.length = 3 := by norm_num [gaussM0]
  rw [gaussForward, h, show 2 * 3 + 2 = 8 from rfl, gauss3_step1, gauss3_step2,
    gauss3_step3, gauss3_step4]

set_option maxHeartbeats 1600000 in
/-- Back substitution of the C3 system. -/
theorem backSubst3_eval : (backSubstGo 3 (gaussM2, [0, 0, 0])).2 = [3/4, 0, -(3/4)] := by
  norm_num [backSubstGo, setEntry, entry, gaussM2, List.range_succ]

/-- The knot slopes of the C3 counterexample spline. -/
theorem naturalKs3_eval : getNaturalKs [0, 2, 4] [0, 1, 0] = [3/4, 0, -(3/4)] := by
  rw [getNaturalKs, natKs3_matrix, solve, gauss3_eval]
  have h : gaussM2.length = 3 := by norm_num [gaussM2]
  rw [h]
  exact backSubst3_eval

/-- Segment lookup for target 1 (first, outermost segment). -/
theorem gib3_eval1 : getIndexBefore [0, 2, 4] 1 = 1 := by
  norm_num [getIndexBefore, getIndexBeforeGo]

/-- Segment lookup for target 3 (last, outermost segment). -/
theorem gib3_eval3 : getIndexBefore [0, 2, 4] 3 = 2 := by
  norm_num [getIndexBefore, getIndexBeforeGo]

/-- C3 spline value at the left knot. -/
theorem spline3_at0 : (CubicSpline.mk [0, 2, 4] [0, 1, 0] [3/4, 0, -(3/4)]).evalAt 0 = 0 := by
  rw [CubicSpline.evalAt]
  norm_num [getIndexBefore, getIndexBeforeGo]

/-- C3 spline value at the midpoint of the first (outermost) segment:
`11/16`, not the `1/2` a straight segment would give. -/
theorem spline3_at1 :
    (CubicSpline.mk [0, 2, 4] [0, 1, 0] [3/4, 0, -(3/4)]).evalAt 1 = 11/16 := by
  rw [CubicSpline.evalAt]
  norm_num [gib3_eval1]

/-- C3 spline value at the middle knot. -/
theorem spline3_at2 : (CubicSpline.mk [0, 2, 4] [0, 1, 0] [3/4, 0, -(3/4)]).evalAt 2 = 1 := by
  rw [CubicSpline.evalAt]
  norm_num [getIndexBefore, getIndexBeforeGo]

/-- C3 spline value at the midpoint of the last (outermost) segment. -/
theorem spline3_at3 :
    (CubicSpline.mk [0, 2, 4] [0, 1, 0] [3/4, 0, -(3/4)]).evalAt 3 = 11/16 := by
  rw [CubicSpline.evalAt]
  norm_num [gib3_eval3]

/-- C3 spline value at the right knot. -/
theorem spline3_at4 : (CubicSpline.mk [0, 2, 4] [0, 1, 0] [3/4, 0, -(3/4)]).evalAt 4 = 0 := by
  rw [CubicSpline.evalAt]
  norm_num [getIndexBefore, getIndexBeforeGo]

set_option maxHeartbeats 1600000 in
/-- The full reconstructed path of the C3 counterexample configuration. -/
theorem generateSpline3_eval :
    generateSpline [⟨0, 0, 0⟩, ⟨1, 1, 2⟩, ⟨0, 0, 4⟩] [0, 1, 2, 3, 4] =
      [⟨0, 0, 0⟩, ⟨11/16, 11/16, 1⟩, ⟨1, 1, 2⟩, ⟨11/16, 11/16, 3⟩, ⟨0, 0, 4⟩] := by
  rw [generateSpline]
  norm_num [List.insertionSort, List.orderedInsert, mkCubicSpline, naturalKs3_eval,
    mathMax, mathMin]
  exact ⟨spline3_at0, spline3_at1, spline3_at2, spline3_at3, spline3_at4⟩

/-- C3: with the 3 sorted markers `(lat,lng) = (0,0), (1,1), (0,0)` at
`cts = 0, 2, 4` and targets `0..4`, the code evaluates the fitted cubic
spline at every in-range target, outermost segments included: the point at
`cts = 1` (inside the first segment) has coordinate `11/16`, whereas a
straight segment between the two outermost markers would give `1/2`.  This
refutes both parts of the claim — the outermost segments are not replaced
by straight lines, and a 3-marker path does not degenerate to pairwise
straight segments. -/
theorem C3_no_linear_edge_counterexample :
    generateSpline [⟨0, 0, 0⟩, ⟨1, 1, 2⟩, ⟨0, 0, 4⟩] [0, 1, 2, 3, 4] =
      [⟨0, 0, 0⟩, ⟨11/16, 11/16, 1⟩, ⟨1, 1, 2⟩, ⟨11/16, 11/16, 3⟩, ⟨0, 0, 4⟩] ∧
    (11/16 : ℚ) ≠ 1/2 := by
  exact ⟨generateSpline3_eval, by norm_num⟩

/-! Helper lemmas for the amended C3 claim: a symbolic run of the library's
Gaussian elimination on the 2-knot system, showing that a 2-marker spline
degenerates to the straight chord. -/

set_option maxHeartbeats 1600000 in
/-- Symbolic solution of a 2-row augmented system `[[a,b,c],[d,e,f]]` by
the library's `solve`, under the pivoting conditions that actually occur
(`|a|` is the column maximum and both pivots are nonzero). -/
theorem solve_two (a b c d e f p q : ℚ) (h1 : ¬ |a| < |d|) (h2 : a ≠ 0)
    (h3 : e - b * (d / a) ≠ 0) :
    solve [[a, b, c], [d, e, f]] [p, q] =
      [(c - b * ((f - c * (d / a)) / (e - b * (d / a)))) / a,
       (f - c * (d / a)) / (e - b * (d / a))] := by
  have hga : gaussForwardGo 6 [[a, b, c], [d, e, f]] 0 0 =
      [[a, b, c], [0, e - b * (d / a), f - c * (d / a)]] := by
    conv_lhs => rw [gaussForwardGo]
    norm_num [pivotIdx, List.range', entry, h1, h2]
    conv_lhs => rw [gaussForwardGo]
    norm_num [elimBelow, swapRows, setEntry, entry, List.range', pivotIdx, h3]
    conv_lhs => rw [gaussForwardGo]
    norm_num [elimBelow, swapRows, setEntry, entry, List.range', pivotIdx, h3]
  rw [solve, gaussForward]
  norm_num [hga, backSubstGo, setEntry, entry, List.range_succ, h2, h3]

/-- `getNaturalKs` on two knots yields the chord slope at both knots. -/
theorem pair_ks (x0 x1 y0 y1 : ℚ) (hlt : x0 < x1) :
    getNaturalKs [x0, x1] [y0, y1] =
      [(y1 - y0) / (x1 - x0), (y1 - y0) / (x1 - x0)] := by
  have hne : x1 - x0 ≠ 0 := sub_ne_zero.mpr (ne_of_gt hlt)
  have hpos : 0 < x1 - x0 := sub_pos.mpr hlt
  have hmat : natKsMatrix [x0, x1] [y0, y1] =
      [[2 / (x1 - x0), 1 / (x1 - x0), 3 * (y1 - y0) / ((x1 - x0) * (x1 - x0))],
       [1 / (x1 - x0), 2 / (x1 - x0), 3 * (y1 - y0) / ((x1 - x0) * (x1 - x0))]] := by
    norm_num [natKsMatrix, natKsEntry, List.range_succ]
  have h1 : ¬ |(2 : ℚ) / (x1 - x0)| < |1 / (x1 - x0)| := by
    rw [abs_of_pos (by positivity), abs_of_pos (by positivity), not_lt]
    gcongr
    norm_num
  have h2 : (2 : ℚ) / (x1 - x0) ≠ 0 := ne_of_gt (by positivity)
  have h3 : 2 / (x1 - x0) - 1 / (x1 - x0) * (1 / (x1 - x0) / (2 / (x1 - x0))) ≠ 0 := by
    have hrw : 2 / (x1 - x0) - 1 / (x1 - x0) * (1 / (x1 - x0) / (2 / (x1 - x0))) =
        3 / (2 * (x1 - x0)) := by
      field_simp
      ring
    rw [hrw]
    positivity
  rw [getNaturalKs, hmat]
  rw [show List.replicate ([x0, x1] : List ℚ).length (0 : ℚ) = [0, 0] from rfl]
  rw [solve_two _ _ _ _ _ _ _ _ h1 h2 h3]
  have e1 : 1 / (x1 - x0) / (2 / (x1 - x0)) = 1 / 2 := by
    field_simp
  rw [e1]
  have d2 : 2 / (x1 - x0) - 1 / (x1 - x0) * (1 / 2) = 3 / (2 * (x1 - x0)) := by
    field_simp
    ring
  rw [d2]
  have e2 : (3 * (y1 - y0) / ((x1 - x0) * (x1 - x0)) -
      3 * (y1 - y0) / ((x1 - x0) * (x1 - x0)) * (1 / 2)) / (3 / (2 * (x1 - x0))) =
      (y1 - y0) / (x1 - x0) := by
    rw [div_eq_div_iff (by positivity) (by positivity)]
    field_simp
    ring
  rw [e2]
  have e3 : (3 * (y1 - y0) / ((x1 - x0) * (x1 - x0)) -
      1 / (x1 - x0) * ((y1 - y0) / (x1 - x0))) / (2 / (x1 - x0)) =
      (y1 - y0) / (x1 - x0) := by
    rw [div_eq_div_iff (by positivity) (by positivity)]
    field_simp
    ring
  rw [e3]

/-- `getIndexBefore` on two knots always selects the single segment. -/
theorem pair_gib (x0 x1 t : ℚ) (h1 : t ≤ x1) :
    getIndexBefore [x0, x1] t = 1 := by
  have hnx1 : ¬ (x1 < t) := not_lt.mpr h1
  by_cases ht : t ≤ x0 <;>
    simp [getIndexBefore, getIndexBeforeGo, hnx1, h1, ht]

/-- A 2-knot spline with chord slopes evaluates to the chord itself. -/
theorem pair_evalAt (x0 x1 y0 y1 t : ℚ) (hlt : x0 < x1) (h1 : t ≤ x1) :
    (x1 - x0) * ((CubicSpline.mk [x0, x1] [y0, y1]
        [(y1 - y0) / (x1 - x0), (y1 - y0) / (x1 - x0)]).evalAt t) =
      (x1 - t) * y0 + (t - x0) * y1 := by
  have hne : x1 - x0 ≠ 0 := sub_ne_zero.mpr (ne_of_gt hlt)
  rw [CubicSpline.evalAt]
  simp only [pair_gib x0 x1 t h1]
  norm_num
  field_simp

/-- C3 (amended): `generateSpline` applies the fitted spline uniformly to
every in-range target — there is no straight-segment substitution for the
outermost segments (see the counterexample, where an outermost segment of a
3-marker path is curved).  Only in the 2-marker case is the path straight,
because the natural cubic spline through two knots is itself the chord:
every reconstructed point `p` of a 2-marker reconstruction lies on the
straight segment between the two markers (stated in cleared-denominator
form), has its `cts` drawn from the target list, and lies inside the marker
`cts` range. -/
theorem C3_two_marker_path_is_chord (a b : MarkerValue) (hab : a.cts < b.cts)
    (targets : List ℚ) (p : SplinePoint) (hp : p ∈ generateSpline [a, b] targets) :
    (b.cts - a.cts) * p.lat = (b.cts - p.cts) * a.lat + (p.cts - a.cts) * b.lat ∧
    (b.cts - a.cts) * p.lng = (b.cts - p.cts) * a.lng + (p.cts - a.cts) * b.lng ∧
    p.cts ∈ targets ∧ a.cts ≤ p.cts ∧ p.cts ≤ b.cts := by
  have hsort : [a, b].insertionSort (fun u v => u.cts ≤ v.cts) = [a, b] := by
    simp [List.insertionSort, List.orderedInsert, hab.le]
  have hmax : mathMax [a.cts, b.cts] = b.cts := by
    simp [mathMax, max_eq_right hab.le]
  have hmin : mathMin [a.cts, b.cts] = a.cts := by
    simp [mathMin, min_eq_left hab.le]
  simp only [generateSpline] at hp
  rw [hsort] at hp
  simp only [List.map_cons, List.map_nil] at hp
  simp only [hmax, hmin] at hp
  simp only [mkCubicSpline] at hp
  rw [pair_ks a.cts b.cts a.lat b.lat hab, pair_ks a.cts b.cts a.lng b.lng hab] at hp
  obtain ⟨x, hxf, rfl⟩ := List.mem_map.mp hp
  obtain ⟨hxt, hxp⟩ := List.mem_filter.mp hxf
  rw [Bool.and_eq_true, decide_eq_true_eq, decide_eq_true_eq] at hxp
  have hax : a.cts ≤ x := hxp.1
  have hxb : x ≤ b.cts := hxp.2
  exact ⟨pair_evalAt a.cts b.cts a.lat b.lat x hab hxb,
    pair_evalAt a.cts b.cts a.lng b.lng x hab hxb, hxt, hax, hxb⟩

/-- Spline value of the 2-marker witness configuration at `cts = 1`. -/
theorem pair_witness_evalAt :
    (CubicSpline.mk [0, 2] [0, 1] [1/2, 1/2]).evalAt 1 = 1/2 := by
  rw [CubicSpline.evalAt]
  norm_num [getIndexBefore, getIndexBeforeGo]

/-- Reconstruction of the 2-marker witness configuration. -/
theorem pair_witness_generateSpline :
    generateSpline [⟨0, 0, 0⟩, ⟨1, 1, 2⟩] [1] = [⟨1/2, 1/2, 1⟩] := by
  rw [generateSpline]
  norm_num [List.insertionSort, List.orderedInsert, mkCubicSpline, mathMax, mathMin,
    pair_ks 0 2 0 1 (by norm_num), pair_witness_evalAt]

/-- C3 witness: for markers at `cts = 0` and `2` with `lat = lng = 0` and
`1`, the single reconstructed point at target `1` is `(1/2, 1/2)`, which
lies on the chord. -/
theorem C3_two_marker_path_is_chord_witness :
    (⟨1/2, 1/2, 1⟩ : SplinePoint) ∈ generateSpline [⟨0, 0, 0⟩, ⟨1, 1, 2⟩] [1] ∧
    ((2 : ℚ) - 0) * (1/2) = (2 - 1) * 0 + (1 - 0) * 1 := by
  have hp : (⟨1/2, 1/2, 1⟩ : SplinePoint) ∈ generateSpline [⟨0, 0, 0⟩, ⟨1, 1, 2⟩] [1] := by
    rw [pair_witness_generateSpline]
    exact List.mem_singleton.mpr rfl
  refine ⟨hp, ?_⟩
  have h := C3_two_marker_path_is_chord ⟨0, 0, 0⟩ ⟨1, 1, 2⟩ (by norm_num) [1]
    ⟨1/2, 1/2, 1⟩ hp
  exact h.1

/-- C4: with zero markers the recompute effect returns early
(`if (!markers.length || !gpsData.length) return;`) and the previously
computed spline points remain — the reconstructed list is not emptied. -/
theorem C4_zero_markers_keep_stale_counterexample :
    splineRecompute [] [⟨0, 0, 0⟩] [⟨1, 2, 3⟩] = [⟨1, 2, 3⟩] ∧
    ([⟨1, 2, 3⟩] : List SplinePoint) ≠ [] := by
  constructor
  · rfl
  · simp

/-- C4 (amended): on a registry/sample change with non-empty samples, the
recompute step produces an empty reconstructed list when exactly one marker
exists; with zero markers it returns early and leaves whatever reconstructed
points were previously computed in place. -/
theorem C4_recompute_under_two_markers (markers : List GPSMarker)
    (gpsData : List RawSample) (prev : List SplinePoint) (hgps : gpsData ≠ []) :
    (markers.length = 1 → splineRecompute markers gpsData prev = []) ∧
    (markers = [] → splineRecompute markers gpsData prev = prev) := by
  constructor
  · intro h1
    rw [splineRecompute, if_neg, if_neg]
    · omega
    · rw [h1]
      simp [List.length_eq_zero, hgps]
  · intro h0
    subst h0
    simp [splineRecompute]

/-- C4 witness: a one-marker registry with one sample recomputes to the
empty list, discarding the stale point. -/
theorem C4_recompute_under_two_markers_witness :
    splineRecompute [⟨0, ⟨1, 2, 300⟩⟩] [⟨0, 0, 0⟩] [⟨1, 2, 3⟩] = [] := by
  exact (C4_recompute_under_two_markers [⟨0, ⟨1, 2, 300⟩⟩] [⟨0, 0, 0⟩] [⟨1, 2, 3⟩]
    (by simp)).1 rfl


/-- Digit characters decode to their digit value. -/
theorem charVal_digitChar {d : ℕ} (hd : d < 10) : charVal (digitChar d) = d := by
  interval_cases d <;> decide

/-- Digit characters satisfy the digit test. -/
theorem isDigitC_digitChar {d : ℕ} (hd : d < 10) : isDigitC (digitChar d) = true := by
  interval_cases d <;> decide

/-- Every character of `natDigits` is a digit. -/
theorem natDigits_all_digits (n : ℕ) : ∀ c ∈ natDigits n, isDigitC c = true := by
  intro c hc
  rw [natDigits] at hc
  split at hc
  · simp only [List.mem_singleton] at hc
    subst hc
    decide
  · obtain ⟨d, hd, rfl⟩ := List.mem_map.mp hc
    exact isDigitC_digitChar (Nat.digits_lt_base (by norm_num) (List.mem_reverse.mp hd))

/-- Printing a natural number and re-reading it is the identity. -/
theorem digitsVal_natDigits (n : ℕ) : digitsVal (natDigits n) = n := by
  rw [natDigits]
  split
  · rename_i h
    rw [h]
    decide
  · rw [digitsVal, List.map_map]
    have hmap : ((Nat.digits 10 n).reverse).map (charVal ∘ digitChar) =
        (Nat.digits 10 n).reverse := by
      have := List.map_congr_left (l := (Nat.digits 10 n).reverse)
        (f := charVal ∘ digitChar) (g := id)
        (fun d hd => charVal_digitChar (Nat.digits_lt_base (by norm_num)
          (List.mem_reverse.mp hd)))
      simpa using this
    rw [hmap, List.reverse_reverse, Nat.ofDigits_digits]

/-- `natDigits` is never empty. -/
theorem natDigits_ne_nil (n : ℕ) : natDigits n ≠ [] := by
  rw [natDigits]
  split
  · simp
  · rename_i h
    simp [Nat.digits_ne_nil_iff_ne_zero.mpr h]

/-- A number below `10 ^ k` prints in at most `k` digits. -/
theorem natDigits_length_le {n k : ℕ} (hk : 1 ≤ k) (hn : n < 10 ^ k) :
    (natDigits n).length ≤ k := by
  rw [natDigits]
  split
  · simpa
  · rename_i h
    rw [List.length_map, List.length_reverse, Nat.digits_len 10 n (by norm_num) h]
    have := Nat.log_lt_of_lt_pow h hn
    omega

theorem takeWhile_all (p : Char → Bool) (a : List Char) (ha : ∀ c ∈ a, p c = true) :
    a.takeWhile p = a ∧ a.dropWhile p = [] := by
  induction a with
  | nil => simp
  | cons c t ih =>
      have hc := ha c (by simp)
      have ih2 := ih (fun x hx => ha x (by simp [hx]))
      simp [List.takeWhile_cons, List.dropWhile_cons, hc, ih2.1, ih2.2]

theorem takeWhile_append_stop (p : Char → Bool) (a : List Char) (b : Char)
    (t : List Char) (ha : ∀ c ∈ a, p c = true) (hb : p b = false) :
    (a ++ b :: t).takeWhile p = a ∧ (a ++ b :: t).dropWhile p = b :: t := by
  induction a with
  | nil => simp [List.takeWhile_cons, List.dropWhile_cons, hb]
  | cons c r ih =>
      have hc := ha c (by simp)
      have ih2 := ih (fun x hx => ha x (by simp [hx]))
      simp [List.takeWhile_cons, List.dropWhile_cons, hc, ih2.1, ih2.2]

theorem ofDigits_replicate_zero (j : ℕ) : Nat.ofDigits 10 (List.replicate j 0) = 0 := by
  induction j with
  | zero => simp
  | succ n ih => simp [List.replicate_succ, Nat.ofDigits_cons, ih]

theorem digitsVal_pad (j : ℕ) (ds : List Char) :
    digitsVal (List.replicate j '0' ++ ds) = digitsVal ds := by
  rw [digitsVal, digitsVal, List.map_append, List.reverse_append, Nat.ofDigits_append]
  have h0 : (List.replicate j '0').map charVal = List.replicate j 0 := by
    rw [List.map_replicate, show charVal '0' = 0 from rfl]
  rw [h0, List.reverse_replicate, ofDigits_replicate_zero]
  simp

/-- `parseFloat` on a plain digit string recovers the number. -/
theorem parseUnsigned_natDigits (n : ℕ) : parseUnsigned (natDigits n) = some (n : ℚ) := by
  have h := takeWhile_all isDigitC (natDigits n) (natDigits_all_digits n)
  simp only [parseUnsigned, h.1, h.2]
  rw [List.isEmpty_eq_false_iff_exists_mem.mpr ?_]
  · simp [digitsVal_natDigits]
  · obtain ⟨c, t, hct⟩ := List.exists_cons_of_ne_nil (natDigits_ne_nil n)
    exact ⟨c, by simp [hct]⟩

/-- The zero-padded fractional digit block consists of digits. -/
theorem pad_all_digits (j : ℕ) (m : ℕ) :
    ∀ c ∈ List.replicate j '0' ++ natDigits m, isDigitC c = true := by
  intro c hc
  rcases List.mem_append.mp hc with h | h
  · rw [List.eq_of_mem_replicate h]
    decide
  · exact natDigits_all_digits m c h

/-- `parseFloat` on `digits.digits` recovers integer and fractional parts. -/
theorem parseUnsigned_decimal (ip fp k : ℕ) (hk : 1 ≤ k) (hfp : fp < 10 ^ k) :
    parseUnsigned (natDigits ip ++ '.' ::
        (List.replicate (k - (natDigits fp).length) '0' ++ natDigits fp)) =
      some ((ip : ℚ) + (fp : ℚ) / 10 ^ k) := by
  have hstop := takeWhile_append_stop isDigitC (natDigits ip) '.'
    (List.replicate (k - (natDigits fp).length) '0' ++ natDigits fp)
    (natDigits_all_digits ip) (by decide)
  have hpad := takeWhile_all isDigitC _ (pad_all_digits (k - (natDigits fp).length) fp)
  have hlen : (List.replicate (k - (natDigits fp).length) '0' ++ natDigits fp).length = k := by
    have := natDigits_length_le hk hfp
    simp [List.length_append, List.length_replicate]
    omega
  simp only [parseUnsigned, hstop.1, hstop.2, hpad.1]
  rw [List.isEmpty_eq_false_iff_exists_mem.mpr ?_]
  · simp only [Bool.false_and, Bool.false_eq_true, if_false]
    rw [digitsVal_pad, digitsVal_natDigits, digitsVal_natDigits, hlen]
  · obtain ⟨c, t, hct⟩ := List.exists_cons_of_ne_nil (natDigits_ne_nil ip)
    exact ⟨c, by simp [hct]⟩

/-- `parseInt` on a plain digit string recovers the number. -/
theorem parseIntU_natDigits (n : ℕ) : parseIntU (natDigits n) = some (n : ℤ) := by
  have h := takeWhile_all isDigitC (natDigits n) (natDigits_all_digits n)
  simp only [parseIntU, h.1]
  rw [List.isEmpty_eq_false_iff_exists_mem.mpr ?_]
  · simp [digitsVal_natDigits]
  · obtain ⟨c, t, hct⟩ := List.exists_cons_of_ne_nil (natDigits_ne_nil n)
    exact ⟨c, by simp [hct]⟩

/-- `parseInt` stops at the decimal point, keeping the integer part. -/
theorem parseIntU_decimal (ip : ℕ) (rest : List Char) :
    parseIntU (natDigits ip ++ '.' :: rest) = some (ip : ℤ) := by
  have hstop := takeWhile_append_stop isDigitC (natDigits ip) '.' rest
    (natDigits_all_digits ip) (by decide)
  simp only [parseIntU, hstop.1]
  rw [List.isEmpty_eq_false_iff_exists_mem.mpr ?_]
  · simp [digitsVal_natDigits]
  · obtain ⟨c, t, hct⟩ := List.exists_cons_of_ne_nil (natDigits_ne_nil ip)
    exact ⟨c, by simp [hct]⟩

/-- For printable rationals, `decExponent` really reaches a power of 10
divisible by the denominator. -/
theorem den_dvd_pow_decExponent (q : ℚ) (h : DecFinite q) :
    (q.den : ℕ) ∣ 10 ^ decExponent q := by
  have hmem : q.den ∈ List.range (q.den + 1) := by simp
  rcases hfind : (List.range (q.den + 1)).find? (fun k => decide ((q.den : ℕ) ∣ 10 ^ k)) with
    _ | k
  · exfalso
    have := List.find?_eq_none.mp hfind q.den hmem
    simp [DecFinite] at h this
    exact this h
  · have hp := List.find?_some hfind
    simp only [decide_eq_true_eq] at hp
    rw [decExponent, hfind]
    simpa using hp

/-- Re-parsing the printed magnitude recovers `|num| / den`. -/
theorem parseUnsigned_numToStringCore (q : ℚ) (hdf : DecFinite q) :
    parseUnsigned (numToStringCore q) = some ((q.num.natAbs : ℚ) / q.den) := by
  have hdvd := den_dvd_pow_decExponent q hdf
  rw [numToStringCore]
  by_cases h0 : decExponent q = 0
  · rw [if_pos h0, parseUnsigned_natDigits]
    have hden : q.den = 1 := by
      rw [h0, pow_zero] at hdvd
      exact Nat.dvd_one.mp hdvd
    rw [h0, hden]
    norm_num
  · have hkpos : 1 ≤ decExponent q := Nat.one_le_iff_ne_zero.mpr h0
    have hppos : (0 : ℕ) < 10 ^ decExponent q := Nat.pos_pow_of_pos _ (by norm_num)
    rw [if_neg h0, parseUnsigned_decimal _ _ _ hkpos (Nat.mod_lt _ hppos)]
    congr 1
    have hden0 : (q.den : ℚ) ≠ 0 := Nat.cast_ne_zero.mpr q.den_nz
    have hp0 : ((10 : ℚ)) ^ decExponent q ≠ 0 := by positivity
    have hdvd2 : q.den ∣ q.num.natAbs * 10 ^ decExponent q := Dvd.dvd.mul_left hdvd _
    have key : ((q.num.natAbs * 10 ^ decExponent q / q.den : ℕ) : ℚ) =
        (q.num.natAbs : ℚ) * 10 ^ decExponent q / q.den := by
      rw [Nat.cast_div hdvd2 hden0]
      push_cast
      ring
    set n := q.num.natAbs * 10 ^ decExponent q / q.den with hn
    have hdm : 10 ^ decExponent q * (n / 10 ^ decExponent q) + n % 10 ^ decExponent q = n :=
      Nat.div_add_mod n (10 ^ decExponent q)
    have hsplit : ((n / 10 ^ decExponent q : ℕ) : ℚ) +
        ((n % 10 ^ decExponent q : ℕ) : ℚ) / 10 ^ decExponent q =
        (n : ℚ) / 10 ^ decExponent q := by
      field_simp
      rw [Nat.mul_comm] at hdm
      exact_mod_cast hdm
    rw [hsplit, key]
    field_simp
    ring

/-- `parseInt` on the printed magnitude recovers the integer quotient. -/
theorem parseIntU_numToStringCore (q : ℚ) (hdf : DecFinite q) :
    parseIntU (numToStringCore q) = some ((q.num.natAbs / q.den : ℕ) : ℤ) := by
  have hdvd := den_dvd_pow_decExponent q hdf
  rw [numToStringCore]
  by_cases h0 : decExponent q = 0
  · rw [if_pos h0, parseIntU_natDigits]
    have hden : q.den = 1 := by
      rw [h0, pow_zero] at hdvd
      exact Nat.dvd_one.mp hdvd
    rw [h0, hden]
    norm_num
  · rw [if_neg h0, parseIntU_decimal]
    have hppos : (0 : ℕ) < 10 ^ decExponent q := Nat.pos_pow_of_pos _ (by norm_num)
    have hcpos : 0 < 10 ^ decExponent q / q.den :=
      Nat.div_pos (Nat.le_of_dvd hppos hdvd) q.pos
    have hassoc : q.num.natAbs * 10 ^ decExponent q / q.den =
        q.num.natAbs * (10 ^ decExponent q / q.den) :=
      Nat.mul_div_assoc _ hdvd
    have hfac : 10 ^ decExponent q = q.den * (10 ^ decExponent q / q.den) :=
      (Nat.mul_div_cancel' hdvd).symm
    congr 2
    set c := 10 ^ decExponent q / q.den with hc
    rw [hassoc, hfac, Nat.mul_div_mul_right]
    exact hcpos

/-- The printed magnitude starts with a digit (never a sign). -/
theorem numToStringCore_head_digit (q : ℚ) :
    ∃ c t, numToStringCore q = c :: t ∧ isDigitC c = true := by
  simp only [numToStringCore]
  split
  · obtain ⟨c, t, hct⟩ := List.exists_cons_of_ne_nil
      (natDigits_ne_nil (q.num.natAbs * 10 ^ decExponent q / q.den))
    exact ⟨c, t, hct, natDigits_all_digits
      (q.num.natAbs * 10 ^ decExponent q / q.den) c (by simp [hct])⟩
  · obtain ⟨c, t, hct⟩ := List.exists_cons_of_ne_nil
      (natDigits_ne_nil (q.num.natAbs * 10 ^ decExponent q / q.den / 10 ^ decExponent q))
    refine ⟨c, t ++ '.' ::
      (List.replicate (decExponent q -
        (natDigits (q.num.natAbs * 10 ^ decExponent q / q.den % 10 ^ decExponent q)).length)
          '0' ++
        natDigits (q.num.natAbs * 10 ^ decExponent q / q.den % 10 ^ decExponent q)),
      ?_, ?_⟩
    · rw [hct]
      rfl
    · exact natDigits_all_digits
        (q.num.natAbs * 10 ^ decExponent q / q.den / 10 ^ decExponent q) c (by simp [hct])

/-- Round trip of one number through `${x}` and `parseFloat`. -/
theorem parseFloatM_numToString (q : ℚ) (hdf : DecFinite q) :
    parseFloatM (numToString q) = some q := by
  obtain ⟨c, t, hct, hcd⟩ := numToStringCore_head_digit q
  have hcm : c ≠ '-' := by
    intro h
    rw [h] at hcd
    exact absurd hcd (by decide)
  have hcp : c ≠ '+' := by
    intro h
    rw [h] at hcd
    exact absurd hcd (by decide)
  rw [numToString]
  by_cases hneg : q.num < 0
  · rw [if_pos hneg]
    have hstep : parseFloatM ('-' :: numToStringCore q) =
        (parseUnsigned (numToStringCore q)).map (fun x => -x) := by
      simp [parseFloatM]
    show parseFloatM ('-' :: numToStringCore q) = some q
    rw [hstep, parseUnsigned_numToStringCore q hdf, Option.map_some']
    have habs : ((q.num.natAbs : ℚ)) = -(q.num : ℚ) := by
      rw [← Int.cast_natCast (R := ℚ), Int.ofNat_natAbs_of_nonpos (le_of_lt hneg)]
      push_cast
      ring
    rw [habs]
    congr 1
    rw [neg_div, neg_neg, Rat.num_div_den]
  · rw [if_neg hneg, List.nil_append, hct]
    have hstep : parseFloatM (c :: t) = parseUnsigned (c :: t) := by
      simp [parseFloatM, hcm, hcp]
    rw [hstep, ← hct, parseUnsigned_numToStringCore q hdf]
    have habs : ((q.num.natAbs : ℚ)) = (q.num : ℚ) := by
      rw [← Int.cast_natCast (R := ℚ), Int.natAbs_of_nonneg (not_lt.mp hneg)]
    rw [habs, Rat.num_div_den]

/-- `parseInt` of `${x}` truncates the value toward zero. -/
theorem parseIntM_numToString (q : ℚ) (hdf : DecFinite q) :
    parseIntM (numToString q) = some (truncTowardZero q) := by
  obtain ⟨c, t, hct, hcd⟩ := numToStringCore_head_digit q
  have hcm : c ≠ '-' := by
    intro h
    rw [h] at hcd
    exact absurd hcd (by decide)
  have hcp : c ≠ '+' := by
    intro h
    rw [h] at hcd
    exact absurd hcd (by decide)
  rw [numToString, truncTowardZero]
  by_cases hneg : q.num < 0
  · rw [if_pos hneg, if_pos hneg]
    have hstep : parseIntM ('-' :: numToStringCore q) =
        (parseIntU (numToStringCore q)).map (fun z => -z) := by
      simp [parseIntM]
    show parseIntM ('-' :: numToStringCore q) = _
    rw [hstep, parseIntU_numToStringCore q hdf, Option.map_some']
  · rw [if_neg hneg, if_neg hneg, List.nil_append, hct]
    have hstep : parseIntM (c :: t) = parseIntU (c :: t) := by
      simp [parseIntM, hcm, hcp]
    rw [hstep, ← hct, parseIntU_numToStringCore q hdf]

/-- `split` always returns at least one part. -/
theorem splitOnChar_ne_nil (sep : Char) (s : List Char) : splitOnChar sep s ≠ [] := by
  induction s with
  | nil => simp [splitOnChar]
  | cons c t ih =>
      rw [splitOnChar]
      split <;> simp

/-- A separator-free string splits into itself alone. -/
theorem splitOnChar_no_sep (sep : Char) (s : List Char) (h : sep ∉ s) :
    splitOnChar sep s = [s] := by
  induction s with
  | nil => rfl
  | cons c t ih =>
      rw [splitOnChar]
      rw [if_neg (show ¬ c = sep from fun hc => h (by rw [← hc]; exact List.mem_cons_self c t))]
      rw [ih (fun ht => h (List.mem_cons_of_mem c ht))]
      rfl

/-- Splitting peels off one separator-free prefix at a time. -/
theorem splitOnChar_append_sep (sep : Char) (a t : List Char) (h : sep ∉ a) :
    splitOnChar sep (a ++ sep :: t) = a :: splitOnChar sep t := by
  induction a with
  | nil => simp [splitOnChar]
  | cons c r ih =>
      rw [List.cons_append, splitOnChar]
      rw [if_neg (show ¬ c = sep from fun hc => h (by rw [← hc]; exact List.mem_cons_self c r))]
      rw [ih (fun hr => h (List.mem_cons_of_mem c hr))]
      rfl

/-- `split` undoes `join` when the parts are separator-free. -/
theorem splitOnChar_joinWith (sep : Char) (rows : List (List Char))
    (hne : rows ≠ []) (h : ∀ r ∈ rows, sep ∉ r) :
    splitOnChar sep (joinWith sep rows) = rows := by
  induction rows with
  | nil => exact absurd rfl hne
  | cons r rs ih =>
      cases rs with
      | nil =>
          rw [joinWith, splitOnChar_no_sep sep r (h r (by simp))]
      | cons s rest =>
          rw [joinWith, splitOnChar_append_sep sep r _ (h r (by simp))]
          rw [ih (by simp) (fun x hx => h x (List.mem_cons_of_mem r hx))]

/-- Characters of the printed magnitude: a dot or digits. -/
theorem numToStringCore_chars (q : ℚ) :
    ∀ c ∈ numToStringCore q, c = '.' ∨ isDigitC c = true := by
  simp only [numToStringCore]
  split
  · intro c hc
    exact Or.inr (natDigits_all_digits _ c hc)
  · intro c hc
    rcases List.mem_append.mp hc with h | h
    · exact Or.inr (natDigits_all_digits _ c h)
    · rcases List.mem_cons.mp h with h | h
      · exact Or.inl h
      · rcases List.mem_append.mp h with h | h
        · rw [List.eq_of_mem_replicate h]
          exact Or.inr (by decide)
        · exact Or.inr (natDigits_all_digits _ c h)

/-- Characters of a printed number: a sign, a dot or digits. -/
theorem numToString_chars (q : ℚ) :
    ∀ c ∈ numToString q, c = '-' ∨ c = '.' ∨ isDigitC c = true := by
  intro c hc
  rw [numToString] at hc
  rcases List.mem_append.mp hc with h | h
  · left
    split at h
    · simpa using h
    · simp at h
  · exact Or.inr (numToStringCore_chars q c h)

/-- No foreign character occurs in a printed number. -/
theorem sep_not_mem_numToString (q : ℚ) (sep : Char) (h1 : sep ≠ '-') (h2 : sep ≠ '.')
    (h3 : isDigitC sep = false) : sep ∉ numToString q := by
  intro hmem
  rcases numToString_chars q sep hmem with h | h | h
  · exact h1 h
  · exact h2 h
  · rw [h] at h3
    exact Bool.noConfusion h3

/-- Printed numbers contain no comma. -/
theorem comma_not_mem_numToString (q : ℚ) : ',' ∉ numToString q :=
  sep_not_mem_numToString q ',' (by decide) (by decide) (by decide)

/-- CSV rows contain no newline. -/
theorem newline_not_mem_markerValueRow (v : MarkerValue) : '\n' ∉ markerValueRow v := by
  intro hmem
  rw [markerValueRow] at hmem
  have hn : ('\n' : Char) ∉ numToString v.lat ∧ ('\n' : Char) ∉ numToString v.lng ∧
      ('\n' : Char) ∉ numToString v.cts :=
    ⟨sep_not_mem_numToString _ _ (by decide) (by decide) (by decide),
     sep_not_mem_numToString _ _ (by decide) (by decide) (by decide),
     sep_not_mem_numToString _ _ (by decide) (by decide) (by decide)⟩
  rcases List.mem_append.mp hmem with h | h
  · exact hn.1 h
  · rcases List.mem_cons.mp h with h | h
    · exact absurd h (by decide)
    · rcases List.mem_append.mp h with h | h
      · exact hn.2.1 h
      · rcases List.mem_cons.mp h with h | h
        · exact absurd h (by decide)
        · exact hn.2.2 h

/-- Splitting a CSV row on commas recovers the three printed fields. -/
theorem splitOnChar_markerValueRow (v : MarkerValue) :
    splitOnChar ',' (markerValueRow v) =
      [numToString v.lat, numToString v.lng, numToString v.cts] := by
  rw [markerValueRow,
    splitOnChar_append_sep ',' _ _ (comma_not_mem_numToString v.lat),
    splitOnChar_append_sep ',' _ _ (comma_not_mem_numToString v.lng),
    splitOnChar_no_sep ',' _ (comma_not_mem_numToString v.cts)]

/-- Parsing a serialized row recovers the positions exactly and the
timestamp truncated toward zero. -/
theorem parseLine_markerValueRow (v : MarkerValue) (h1 : DecFinite v.lat)
    (h2 : DecFinite v.lng) (h3 : DecFinite v.cts) :
    parseLine (markerValueRow v) =
      ⟨some v.lat, some v.lng, some (truncTowardZero v.cts)⟩ := by
  rw [parseLine, splitOnChar_markerValueRow]
  simp only [List.getD_cons_zero, List.getD_cons_succ]
  rw [parseFloatM_numToString _ h1, parseFloatM_numToString _ h2,
    parseIntM_numToString _ h3]

/-- C9 (amended): for every non-empty marker set whose coordinate values
are printable decimals (true of every JavaScript float), exporting to CSV
and re-importing reproduces the same `lat`/`lng` positions in the same
order with ids densely reassigned `0..n-1`; the timestamps, however, come
back truncated toward zero by `parseInt`, so they are reproduced exactly
only when integral (see the counterexample). -/
theorem C9_roundtrip (markers : List GPSMarker) (hne : markers ≠ [])
    (hdf : ∀ m ∈ markers, DecFinite m.value.lat ∧ DecFinite m.value.lng ∧
      DecFinite m.value.cts) :
    loadMarkersFromCSV (serializeMarkers markers) =
      (markers.map (fun m => (⟨some m.value.lat, some m.value.lng,
        some (truncTowardZero m.value.cts)⟩ : ParsedRow))).enum ∧
    (loadMarkersFromCSV (serializeMarkers markers)).map Prod.fst =
      List.range markers.length := by
  have hsplit : splitOnChar '\n' (serializeMarkers markers) =
      markers.map (fun m => markerValueRow m.value) := by
    rw [serializeMarkers]
    apply splitOnChar_joinWith
    · simp [hne]
    · intro r hr
      obtain ⟨m, hm, rfl⟩ := List.mem_map.mp hr
      exact newline_not_mem_markerValueRow m.value
  have hmap : (markers.map (fun m => markerValueRow m.value)).map parseLine =
      markers.map (fun m => (⟨some m.value.lat, some m.value.lng,
        some (truncTowardZero m.value.cts)⟩ : ParsedRow)) := by
    rw [List.map_map]
    apply List.map_congr_left
    intro m hm
    obtain ⟨h1, h2, h3⟩ := hdf m hm
    exact parseLine_markerValueRow m.value h1 h2 h3
  constructor
  · rw [loadMarkersFromCSV, hsplit, hmap]
  · rw [loadMarkersFromCSV, hsplit, hmap, List.enum_map_fst, List.length_map]

/-- C9: a marker with the non-integral timestamp `cts = 1234.5` (as arises
from `currentCTS = playedSeconds * 1000`) round-trips to `cts = 1234`:
`saveData` prints `1234.5` but `loadMarkersFromCSV` reads it back with
`parseInt`, so the marker set is not reproduced. -/
theorem C9_fractional_cts_counterexample :
    loadMarkersFromCSV (serializeMarkers [⟨0, ⟨1, 2, 2469/2⟩⟩]) =
      [(0, ⟨some 1, some 2, some 1234⟩)] ∧
    ((1234 : ℚ) ≠ 2469/2) := by
  have hnum : (2469/2 : ℚ).num = 2469 := by norm_num [Rat.num_div_eq_of_coprime]
  have hden : (2469/2 : ℚ).den = 2 := by norm_num [Rat.den_div_eq_of_coprime]
  constructor
  · rw [loadMarkersFromCSV, serializeMarkers]
    simp only [List.map_cons, List.map_nil]
    rw [show joinWith '\n' [markerValueRow (⟨1, 2, 2469/2⟩ : MarkerValue)] =
      markerValueRow ⟨1, 2, 2469/2⟩ from rfl]
    rw [splitOnChar_no_sep '\n' _ (newline_not_mem_markerValueRow _)]
    simp only [List.map_cons, List.map_nil]
    rw [parseLine_markerValueRow ⟨1, 2, 2469/2⟩ ?_ ?_ ?_]
    · have ht : truncTowardZero (2469/2 : ℚ) = 1234 := by
        rw [truncTowardZero, hnum, hden]
        norm_num
      rw [show ((⟨1, 2, 2469/2⟩ : MarkerValue).cts) = (2469/2 : ℚ) from rfl, ht]
      rfl
    · show DecFinite (1 : ℚ)
      simp [DecFinite]
    · show DecFinite (2 : ℚ)
      rw [DecFinite]
      norm_num
    · show DecFinite (2469/2 : ℚ)
      rw [DecFinite, hden]
      norm_num
  · norm_num


/-- C6 (amended): `loadMarkersFromCSV` performs no header detection:
every line of the file — a header line included — becomes one marker, ids
are assigned densely `0..n-1` in file order over all lines, the rows are
parsed in file order, and the header line `lat,lng,cts` itself parses to a
marker with `NaN` in every field. -/
theorem C6_every_line_becomes_marker (file : List Char) :
    (loadMarkersFromCSV file).length = (splitOnChar '\n' file).length ∧
    (loadMarkersFromCSV file).map Prod.fst =
      List.range ((splitOnChar '\n' file).length) ∧
    (loadMarkersFromCSV file).map Prod.snd = (splitOnChar '\n' file).map parseLine ∧
    parseLine ("lat,lng,cts".toList) = ⟨none, none, none⟩ := by
  refine ⟨?_, ?_, ?_, ?_⟩
  · rw [loadMarkersFromCSV, List.enum_length, List.length_map]
  · rw [loadMarkersFromCSV, List.enum_map_fst, List.length_map]
  · rw [loadMarkersFromCSV, List.enum_map_snd]
  · decide

/-- C6: importing the two-line file `"lat,lng,cts\n1,2,3"` yields two
markers, not one: the header row is not skipped but becomes marker 0 with
`NaN` (`none`) fields. -/
theorem C6_header_not_skipped_counterexample :
    loadMarkersFromCSV ("lat,lng,cts\n1,2,3".toList) =
      [(0, ⟨none, none, none⟩), (1, ⟨some 1, some 2, some 3⟩)] ∧
    (loadMarkersFromCSV ("lat,lng,cts\n1,2,3".toList)).length ≠ 1 := by
  constructor
  · decide
  · decide

/-- C9 witness: a single marker at `(1, 2)` with integral `cts = 5`
round-trips exactly, with id 0. -/
theorem C9_roundtrip_witness :
    loadMarkersFromCSV (serializeMarkers [⟨0, ⟨1, 2, 5⟩⟩]) =
      [(0, ⟨some 1, some 2, some 5⟩)] := by
  have hd : ∀ m ∈ ([⟨0, ⟨1, 2, 5⟩⟩] : List GPSMarker),
      DecFinite m.value.lat ∧ DecFinite m.value.lng ∧ DecFinite m.value.cts := by
    intro m hm
    rw [List.mem_singleton] at hm
    subst hm
    refine ⟨?_, ?_, ?_⟩ <;> (rw [DecFinite] ; norm_num)
  have h := (C9_roundtrip [⟨0, ⟨1, 2, 5⟩⟩] (by simp) hd).1
  rw [h]
  have ht : truncTowardZero (5 : ℚ) = 5 := by
    rw [truncTowardZero]
    norm_num
  simp only [List.map_cons, List.map_nil, ht]
  rfl
